import Mathlib

/-!
Verification of the route-progress simulator in `src/client/src/pages/LocationTrack.tsx`
and the history-bounding handler in `src/client/src/pages/Dashboard.tsx`.

Numbers are modelled as exact rationals (`ℚ`); JS `Math.floor` on a real quotient is
`Int.floor`.  `Date.now()` is modelled as a monotone logical clock.  The heading
computation is delegated by the source to the external maps library
(`google.maps.geometry.spherical.computeHeading`), so it is modelled as an abstract
`bearing : Point → Point → ℚ` parameter.
-/

set_option maxRecDepth 8000

namespace LocationTrack

/-- A latitude/longitude pair, as in the waypoint object literals of `LocationTrack.tsx`. -/
structure Point where
  lat : ℚ
  lng : ℚ
deriving DecidableEq, Repr

/-- Definition `routePoints` from `LocationTrack.tsx` (lines 40-49): the fixed waypoints
of the Karimnagar → Hyderabad route. -/
def routePoints : List Point :=
  [⟨18.4386, 79.1288⟩, ⟨18.3500, 79.0500⟩, ⟨18.1500, 78.9500⟩, ⟨18.0000, 78.8500⟩,
   ⟨17.7500, 78.7000⟩, ⟨17.5500, 78.6000⟩, ⟨17.4500, 78.5500⟩, ⟨17.3850, 78.4867⟩]

/-- Definition `interpolatePoints` from `LocationTrack.tsx` (lines 255-260). -/
def interpolatePoints (p1 p2 : Point) (t : ℚ) : Point :=
  { lat := p1.lat + (p2.lat - p1.lat) * t
    lng := p1.lng + (p2.lng - p1.lng) * t }

/-- Definition `findCurrentSegment` from `LocationTrack.tsx` (lines 263-271), generalized
over the waypoint list it closes over (`routePoints` in the source; only its length is
used).  The result is an integer (`Math.floor` can in principle go negative). -/
def findCurrentSegment (route : List Point) (progress : ℚ) : ℤ :=
  if 1 ≤ progress then (route.length : ℤ) - 2
  else
    let totalSegments : ℤ := (route.length : ℤ) - 1
    let progressPerSegment : ℚ := 1 / (totalSegments : ℚ)
    let currentSegment : ℤ := ⌊progress / progressPerSegment⌋
    min currentSegment (totalSegments - 1)

/-- The `segmentProgress` computation of the "update target location" effect
(`LocationTrack.tsx` lines 315-318). -/
def segmentProgress (route : List Point) (progress : ℚ) : ℚ :=
  let currentSegment := findCurrentSegment route progress
  let totalSegments : ℤ := (route.length : ℤ) - 1
  let progressPerSegment : ℚ := 1 / (totalSegments : ℚ)
  (progress - (currentSegment : ℚ) * progressPerSegment) / progressPerSegment

/-- The `newPos` computation of the "update target location" effect
(`LocationTrack.tsx` lines 320-323): look up the two endpoint waypoints of the current
segment and interpolate between them. -/
def targetPosition (route : List Point) (progress : ℚ) : Point :=
  let currentSegment := findCurrentSegment route progress
  let p1 := route.getD currentSegment.toNat ⟨0, 0⟩
  let p2 := route.getD (currentSegment.toNat + 1) ⟨0, 0⟩
  interpolatePoints p1 p2 (segmentProgress route progress)

/-- The `heading` computation of the "update target location" effect
(`LocationTrack.tsx` lines 320-324): `calculateHeading(p1, p2)` applied to the current
segment's endpoints, with the library's `computeHeading` abstracted as `bearing`. -/
def targetHeading (bearing : Point → Point → ℚ) (route : List Point) (progress : ℚ) : ℚ :=
  let currentSegment := findCurrentSegment route progress
  bearing (route.getD currentSegment.toNat ⟨0, 0⟩)
    (route.getD (currentSegment.toNat + 1) ⟨0, 0⟩)

/- Arithmetic facts about segment resolution. -/

lemma length_cast_sub_one_pos (route : List Point) (hN : 2 ≤ route.length) :
    (0 : ℚ) < (route.length : ℚ) - 1 := by
  have h : (2 : ℚ) ≤ (route.length : ℚ) := by exact_mod_cast hN
  linarith

lemma findCurrentSegment_of_lt_one (route : List Point) (p : ℚ) (hN : 2 ≤ route.length)
    (h1 : p < 1) :
    findCurrentSegment route p = ⌊p * ((route.length : ℚ) - 1)⌋ := by
  have hd : (0 : ℚ) < (route.length : ℚ) - 1 := length_cast_sub_one_pos route hN
  unfold findCurrentSegment
  rw [if_neg (not_le.mpr h1)]
  dsimp only
  have hcast : ((((route.length : ℤ) - 1) : ℤ) : ℚ) = (route.length : ℚ) - 1 := by push_cast; ring
  rw [hcast, div_div_eq_mul_div, div_one]
  have hlt : ⌊p * ((route.length : ℚ) - 1)⌋ ≤ (route.length : ℤ) - 1 - 1 := by
    have : p * ((route.length : ℚ) - 1) < (route.length : ℚ) - 1 := by nlinarith
    have hfl : ⌊p * ((route.length : ℚ) - 1)⌋ < (route.length : ℤ) - 1 := by
      rw [Int.floor_lt]
      push_cast
      linarith
    omega
  exact min_eq_left hlt

lemma segmentProgress_eq (route : List Point) (p : ℚ) (hN : 2 ≤ route.length) :
    segmentProgress route p
      = p * ((route.length : ℚ) - 1) - (findCurrentSegment route p : ℚ) := by
  have hd : (0 : ℚ) < (route.length : ℚ) - 1 := length_cast_sub_one_pos route hN
  unfold segmentProgress
  dsimp only
  have hcast : ((((route.length : ℤ) - 1) : ℤ) : ℚ) = (route.length : ℚ) - 1 := by push_cast; ring
  rw [hcast]
  field_simp

/-- C1: for every route with N ≥ 2 waypoints and every progress p ∈ [0,1], the segment
index computed by `findCurrentSegment` lies in [0, N−2] (including at p = 1), both
waypoint lookups of the segment are in bounds, and the segment-local interpolation
fraction lies in [0,1]. -/
theorem segment_resolution_in_range (route : List Point) (p : ℚ)
    (hN : 2 ≤ route.length) (h0 : 0 ≤ p) (h1 : p ≤ 1) :
    0 ≤ findCurrentSegment route p ∧
    findCurrentSegment route p ≤ (route.length : ℤ) - 2 ∧
    (findCurrentSegment route p).toNat + 1 < route.length ∧
    0 ≤ segmentProgress route p ∧ segmentProgress route p ≤ 1 := by
  have hd : (0 : ℚ) < (route.length : ℚ) - 1 := length_cast_sub_one_pos route hN
  rcases lt_or_eq_of_le h1 with hlt | heq
  · have hseg := findCurrentSegment_of_lt_one route p hN hlt
    have hge0 : 0 ≤ findCurrentSegment route p := by
      rw [hseg]
      exact Int.floor_nonneg.mpr (by positivity)
    have hle : findCurrentSegment route p ≤ (route.length : ℤ) - 2 := by
      rw [hseg]
      have : p * ((route.length : ℚ) - 1) < (route.length : ℚ) - 1 := by nlinarith
      have hfl : ⌊p * ((route.length : ℚ) - 1)⌋ < (route.length : ℤ) - 1 := by
        rw [Int.floor_lt]
        push_cast
        linarith
      omega
    refine ⟨hge0, hle, by omega, ?_, ?_⟩
    · rw [segmentProgress_eq route p hN, hseg]
      have := Int.floor_le (p * ((route.length : ℚ) - 1))
      linarith
    · rw [segmentProgress_eq route p hN, hseg]
      have := Int.lt_floor_add_one (p * ((route.length : ℚ) - 1))
      linarith
  · subst heq
    have hseg : findCurrentSegment route 1 = (route.length : ℤ) - 2 := by
      unfold findCurrentSegment
      rw [if_pos le_rfl]
    have ht : segmentProgress route 1 = 1 := by
      rw [segmentProgress_eq route 1 hN, hseg]
      push_cast
      ring
    refine ⟨by omega, by omega, by omega, by rw [ht]; norm_num, by rw [ht]⟩

/-- Witness for C1 at the concrete route and p = 1/2. -/
theorem segment_resolution_in_range_witness :
    0 ≤ findCurrentSegment routePoints (1/2) ∧
    findCurrentSegment routePoints (1/2) ≤ (routePoints.length : ℤ) - 2 ∧
    (findCurrentSegment routePoints (1/2)).toNat + 1 < routePoints.length ∧
    0 ≤ segmentProgress routePoints (1/2) ∧ segmentProgress routePoints (1/2) ≤ 1 :=
  segment_resolution_in_range routePoints (1/2) (by decide) (by norm_num) (by norm_num)

lemma interpolatePoints_zero (p1 p2 : Point) : interpolatePoints p1 p2 0 = p1 := by
  cases p1; cases p2
  simp [interpolatePoints]

lemma interpolatePoints_one (p1 p2 : Point) : interpolatePoints p1 p2 1 = p2 := by
  cases p1; cases p2
  simp only [interpolatePoints, mul_one, Point.mk.injEq]
  constructor <;> ring

lemma findCurrentSegment_zero (route : List Point) (hN : 2 ≤ route.length) :
    findCurrentSegment route 0 = 0 := by
  rw [findCurrentSegment_of_lt_one route 0 hN (by norm_num)]
  simp

lemma findCurrentSegment_one (route : List Point) :
    findCurrentSegment route 1 = (route.length : ℤ) - 2 := by
  unfold findCurrentSegment
  rw [if_pos le_rfl]

lemma segmentProgress_zero (route : List Point) (hN : 2 ≤ route.length) :
    segmentProgress route 0 = 0 := by
  rw [segmentProgress_eq route 0 hN, findCurrentSegment_zero route hN]
  simp

lemma segmentProgress_one (route : List Point) (hN : 2 ≤ route.length) :
    segmentProgress route 1 = 1 := by
  rw [segmentProgress_eq route 1 hN, findCurrentSegment_one route]
  push_cast
  ring

lemma targetPosition_zero (route : List Point) (hN : 2 ≤ route.length) :
    targetPosition route 0 = route.getD 0 ⟨0, 0⟩ := by
  unfold targetPosition
  dsimp only
  rw [findCurrentSegment_zero route hN, segmentProgress_zero route hN]
  simp [interpolatePoints_zero]

lemma targetPosition_one (route : List Point) (hN : 2 ≤ route.length) :
    targetPosition route 1 = route.getD (route.length - 1) ⟨0, 0⟩ := by
  unfold targetPosition
  dsimp only
  rw [findCurrentSegment_one route, segmentProgress_one route hN]
  have htn : ((route.length : ℤ) - 2).toNat = route.length - 2 := by omega
  have hidx : route.length - 2 + 1 = route.length - 1 := by omega
  rw [htn, hidx, interpolatePoints_one]

/-- C3: for every route with N ≥ 2 waypoints, the interpolated position at progress 0
is exactly the first waypoint and the interpolated position at progress 1 is exactly
the last waypoint. -/
theorem endpoints_exact (route : List Point) (hN : 2 ≤ route.length) :
    targetPosition route 0 = route.getD 0 ⟨0, 0⟩ ∧
    targetPosition route 1 = route.getD (route.length - 1) ⟨0, 0⟩ :=
  ⟨targetPosition_zero route hN, targetPosition_one route hN⟩

/-- Witness for C3 at a concrete two-waypoint route. -/
theorem endpoints_exact_witness :
    targetPosition [⟨0, 0⟩, ⟨1, 2⟩] 0 = ([⟨0, 0⟩, ⟨1, 2⟩] : List Point).getD 0 ⟨0, 0⟩ ∧
    targetPosition [⟨0, 0⟩, ⟨1, 2⟩] 1
      = ([⟨0, 0⟩, ⟨1, 2⟩] : List Point).getD (([⟨0, 0⟩, ⟨1, 2⟩] : List Point).length - 1)
          ⟨0, 0⟩ :=
  endpoints_exact [⟨0, 0⟩, ⟨1, 2⟩] (by decide)

/-- C8: the emitted heading depends only on the resolved segment — any two progress
values resolving to the same segment give the same heading, namely the bearing from
that segment's start waypoint to its end waypoint — and on a two-waypoint route the
heading is the single bearing from waypoint 0 to waypoint 1 for every p strictly
between 0 and 1. -/
theorem heading_piecewise_constant (bearing : Point → Point → ℚ) (route : List Point) :
    (∀ p q : ℚ, findCurrentSegment route p = findCurrentSegment route q →
      targetHeading bearing route p = targetHeading bearing route q) ∧
    (∀ p : ℚ, targetHeading bearing route p
      = bearing (route.getD (findCurrentSegment route p).toNat ⟨0, 0⟩)
          (route.getD ((findCurrentSegment route p).toNat + 1) ⟨0, 0⟩)) ∧
    (∀ w0 w1 : Point, ∀ p : ℚ, 0 < p → p < 1 →
      targetHeading bearing [w0, w1] p = bearing w0 w1) := by
  refine ⟨?_, fun p => rfl, ?_⟩
  · intro p q h
    unfold targetHeading
    rw [h]
  · intro w0 w1 p hp0 hp1
    have hseg : findCurrentSegment [w0, w1] p = 0 := by
      rw [findCurrentSegment_of_lt_one [w0, w1] p (by simp) hp1]
      have : (([w0, w1] : List Point).length : ℚ) - 1 = 1 := by norm_num
      rw [this, mul_one]
      exact Int.floor_eq_zero_iff.mpr ⟨le_of_lt hp0, hp1⟩
    unfold targetHeading
    rw [hseg]
    rfl

/-- Witness for C8: the constant-7 bearing on the concrete route at two progress values
in the first segment, and a concrete two-waypoint route at p = 1/2. -/
theorem heading_piecewise_constant_witness :
    targetHeading (fun _ _ => (7 : ℚ)) routePoints (1/10)
      = targetHeading (fun _ _ => (7 : ℚ)) routePoints (1/9) ∧
    targetHeading (fun _ _ => (7 : ℚ)) [⟨0, 0⟩, ⟨1, 1⟩] (1/2) = 7 := by
  constructor
  · have e1 : findCurrentSegment routePoints (1/10) = 0 := by
      rw [findCurrentSegment_of_lt_one routePoints (1/10) (by decide) (by norm_num)]
      rw [show ((routePoints.length : ℚ) - 1) = 7 by norm_num [routePoints]]
      rw [Int.floor_eq_zero_iff]
      constructor <;> norm_num
    have e2 : findCurrentSegment routePoints (1/9) = 0 := by
      rw [findCurrentSegment_of_lt_one routePoints (1/9) (by decide) (by norm_num)]
      rw [show ((routePoints.length : ℚ) - 1) = 7 by norm_num [routePoints]]
      rw [Int.floor_eq_zero_iff]
      constructor <;> norm_num
    exact (heading_piecewise_constant (fun _ _ => (7 : ℚ)) routePoints).1 (1/10) (1/9)
      (e1.trans e2.symm)
  · exact (heading_piecewise_constant (fun _ _ => (7 : ℚ)) [⟨0, 0⟩, ⟨1, 1⟩]).2.2
      ⟨0, 0⟩ ⟨1, 1⟩ (1/2) (by norm_num) (by norm_num)

/-!
Operational model of the `LocationTracker` component.

React state of the component (the pieces the simulator touches): `isConnected`,
`progress`, `locationHistory`, `targetLocation`, plus the `animationRef` frame handle
(`animPending`).  Two effects matter:

* effect A, `useEffect(..., [isConnected])` (lines 287-309): on `isConnected = true`
  resets progress to 0, clears the history and schedules the animation frame; on
  `isConnected = false` cancels the pending frame.
* effect B, `useEffect(..., [progress, isConnected])` (lines 312-337): when connected,
  builds `newLocation` from the *render snapshot's* progress, stores it in
  `targetLocation` and appends it to the history (a functional update, so it sees
  effect A's clear from the same commit).

After an event (button click or animation frame) React re-renders and runs the effects
whose dependency arrays changed since the previous render; state updates queued by the
effects trigger another render, and so on until no dependency changes.  `commitStep`
models one such commit (effects read the commit's snapshot `s`, updates accumulate in
the live state); three commits always reach the fixed point here, so `stabilize`
applies three.  `Date.now()` is a monotone logical clock incremented per emitted
sample.
-/

/-- A `Location` record as produced by the target-update effect (lines 326-332).
Fields that are optional in the source interface are `Option`s. -/
structure Sample where
  lat : ℚ
  lng : ℚ
  timestamp : ℕ
  heading : Option ℚ
  speed : Option ℚ
deriving DecidableEq, Repr

/-- The `newLocation` value built by effect B at a given snapshot progress (lines
326-332): interpolated position, heading of the current segment, fixed speed 60. -/
def mkTargetSample (bearing : Point → Point → ℚ) (progress : ℚ) (now : ℕ) : Sample :=
  { lat := (targetPosition routePoints progress).lat
    lng := (targetPosition routePoints progress).lng
    timestamp := now
    heading := some (targetHeading bearing routePoints progress)
    speed := some 60 }

/-- The component state: React state fields, the animation-frame handle, the
dependency values each effect last ran with, and the logical clock. -/
structure TrackerState where
  isConnected : Bool
  progress : ℚ
  locationHistory : List Sample
  targetLocation : Option Sample
  animPending : Bool
  depA_conn : Bool
  depB_prog : ℚ
  depB_conn : Bool
  clock : ℕ
deriving DecidableEq, Repr

/-- A state whose effect-dependency memories agree with its current values: nothing
would run on a spurious re-render.  Every event handler below leaves the state stable. -/
def Stable (s : TrackerState) : Prop :=
  s.depA_conn = s.isConnected ∧ s.depB_prog = s.progress ∧ s.depB_conn = s.isConnected

/-- Effect A (lines 287-309), reading snapshot `snap` and updating live state `live`. -/
def runStartStopEffect (snap live : TrackerState) : TrackerState :=
  if snap.isConnected then
    { live with progress := 0, locationHistory := [], animPending := true }
  else
    { live with animPending := false }

/-- Effect B (lines 312-337), reading snapshot `snap` and updating live state `live`:
guarded by `isConnected`, emits one sample at the snapshot's progress. -/
def runTargetEffect (bearing : Point → Point → ℚ) (snap live : TrackerState) :
    TrackerState :=
  if snap.isConnected then
    let smp := mkTargetSample bearing snap.progress live.clock
    { live with targetLocation := some smp
                locationHistory := live.locationHistory ++ [smp]
                clock := live.clock + 1 }
  else live

/-- One React commit: run each effect whose dependencies changed since its last run
(reading the commit snapshot `s`), then record the snapshot as the new dependencies. -/
def commitStep (bearing : Point → Point → ℚ) (s : TrackerState) : TrackerState :=
  let s1 := if s.depA_conn ≠ s.isConnected then runStartStopEffect s s else s
  let s2 :=
    if s.depB_prog ≠ s.progress ∨ s.depB_conn ≠ s.isConnected then
      runTargetEffect bearing s s1
    else s1
  { s2 with depA_conn := s.isConnected, depB_prog := s.progress,
            depB_conn := s.isConnected }

/-- Run commits to the fixed point; three always suffice for the events below. -/
def stabilize (bearing : Point → Point → ℚ) (s : TrackerState) : TrackerState :=
  commitStep bearing (commitStep bearing (commitStep bearing s))

/-- The `connectToTracker` click handler (lines 340-352): toggle `isConnected`, then
let React flush the effects. -/
def connectToTracker (bearing : Point → Point → ℚ) (s : TrackerState) : TrackerState :=
  stabilize bearing { s with isConnected := !s.isConnected }

/-- The progress update inside `animateAlongRoute` (lines 278-281):
`prev + 0.001`, clamped to 1. -/
def advanceProgress (p : ℚ) : ℚ :=
  if p + 1/1000 > 1 then 1 else p + 1/1000

/-- One animation frame (lines 274-284): if a frame is pending, advance the progress
and reschedule, then let React flush the effects.  A cancelled loop
(`animPending = false`) does nothing. -/
def tick (bearing : Point → Point → ℚ) (s : TrackerState) : TrackerState :=
  if s.animPending then stabilize bearing { s with progress := advanceProgress s.progress }
  else s

/-- State after mount (lines 19-34 and the first run of both effects with
`isConnected = false`): the initial target is Karimnagar, nothing is running. -/
def initialState : TrackerState :=
  { isConnected := false, progress := 0, locationHistory := []
    targetLocation := some { lat := 18.4386, lng := 79.1288, timestamp := 0,
                             heading := none, speed := none }
    animPending := false, depA_conn := false, depB_prog := 0, depB_conn := false
    clock := 0 }

/-- The `calculateHeading` fallback when the maps library is absent (line 244 returns
0): a concrete bearing function for closed scenarios. -/
def bearing0 : Point → Point → ℚ := fun _ _ => 0

/- Commit mechanics. -/

lemma commitStep_stable (bearing : Point → Point → ℚ) (s : TrackerState)
    (hs : Stable s) : commitStep bearing s = s := by
  obtain ⟨h1, h2, h3⟩ := hs
  rcases s with ⟨conn, prog, hist, tgt, anim, dA, dBp, dBc, clk⟩
  simp only at h1 h2 h3
  subst h1 h2 h3
  simp [commitStep]

lemma stabilize_stable (bearing : Point → Point → ℚ) (s : TrackerState)
    (hs : Stable s) : stabilize bearing s = s := by
  unfold stabilize
  rw [commitStep_stable bearing s hs, commitStep_stable bearing s hs,
    commitStep_stable bearing s hs]

/-- Stopping from a stable running state: effect A cancels the frame, effect B's guard
fails; progress, history, target and clock are untouched. -/
lemma connect_stop_eq (bearing : Point → Point → ℚ) (s : TrackerState)
    (hs : Stable s) (hc : s.isConnected = true) :
    connectToTracker bearing s
      = { s with isConnected := false, animPending := false,
                 depA_conn := false, depB_conn := false } := by
  obtain ⟨h1, h2, h3⟩ := hs
  rcases s with ⟨conn, prog, hist, tgt, anim, dA, dBp, dBc, clk⟩
  simp only at h1 h2 h3 hc
  subst h1 h2 h3 hc
  simp [connectToTracker, stabilize, commitStep, runStartStopEffect, runTargetEffect]

/-- Starting from a stable idle state whose progress is 0 (fresh mount): effect A
resets and schedules, effect B appends exactly one sample at progress 0. -/
lemma connect_start_eq_zero (bearing : Point → Point → ℚ) (s : TrackerState)
    (hs : Stable s) (hc : s.isConnected = false) (hp : s.progress = 0) :
    connectToTracker bearing s
      = ⟨true, 0, [mkTargetSample bearing 0 s.clock],
          some (mkTargetSample bearing 0 s.clock), true, true, 0, true, s.clock + 1⟩ := by
  obtain ⟨h1, h2, h3⟩ := hs
  rcases s with ⟨conn, prog, hist, tgt, anim, dA, dBp, dBc, clk⟩
  simp only at h1 h2 h3 hc hp
  subst h1 h2 h3 hc hp
  simp [connectToTracker, stabilize, commitStep, runStartStopEffect, runTargetEffect]

/-- Starting from a stable idle state whose progress q is not 0 (a restart after a
previous session): the transition commit appends a sample computed at the stale
progress q, and the follow-up commit (progress changed q → 0) appends a second sample
at progress 0. -/
lemma connect_start_eq (bearing : Point → Point → ℚ) (s : TrackerState)
    (hs : Stable s) (hc : s.isConnected = false) (hp : s.progress ≠ 0) :
    connectToTracker bearing s
      = ⟨true, 0,
          [mkTargetSample bearing s.progress s.clock,
            mkTargetSample bearing 0 (s.clock + 1)],
          some (mkTargetSample bearing 0 (s.clock + 1)), true, true, 0, true,
          s.clock + 2⟩ := by
  obtain ⟨h1, h2, h3⟩ := hs
  rcases s with ⟨conn, prog, hist, tgt, anim, dA, dBp, dBc, clk⟩
  simp only at h1 h2 h3 hc hp
  subst h1 h2 h3 hc
  simp [connectToTracker, stabilize, commitStep, runStartStopEffect, runTargetEffect, hp,
    Ne.symm hp]

/-- A running tick that changes the progress: effect B appends one sample at the new
progress. -/
lemma tick_advances (bearing : Point → Point → ℚ) (s : TrackerState)
    (hs : Stable s) (hc : s.isConnected = true) (ha : s.animPending = true)
    (hne : advanceProgress s.progress ≠ s.progress) :
    tick bearing s
      = ⟨true, advanceProgress s.progress,
          s.locationHistory
            ++ [mkTargetSample bearing (advanceProgress s.progress) s.clock],
          some (mkTargetSample bearing (advanceProgress s.progress) s.clock), true,
          true, advanceProgress s.progress, true, s.clock + 1⟩ := by
  obtain ⟨h1, h2, h3⟩ := hs
  rcases s with ⟨conn, prog, hist, tgt, anim, dA, dBp, dBc, clk⟩
  simp only at h1 h2 h3 hc ha hne
  subst h1 h2 h3 hc ha
  simp [tick, stabilize, commitStep, runStartStopEffect, runTargetEffect, hne, Ne.symm hne]

/-- A tick that does not change the progress (the clamp at 1, or no pending frame)
leaves the state unchanged: no dependency changes, so no effect runs. -/
lemma tick_fixed (bearing : Point → Point → ℚ) (s : TrackerState)
    (hs : Stable s) (heq : advanceProgress s.progress = s.progress) :
    tick bearing s = s := by
  unfold tick
  have hst : ({ s with progress := advanceProgress s.progress } : TrackerState) = s := by
    rcases s with ⟨conn, prog, hist, tgt, anim, dA, dBp, dBc, clk⟩
    simp only at heq
    simp [heq]
  rw [hst, stabilize_stable bearing s hs]
  simp

lemma tick_not_pending (bearing : Point → Point → ℚ) (s : TrackerState)
    (ha : s.animPending = false) : tick bearing s = s := by
  unfold tick
  rw [ha]
  simp

lemma commitStep_isConnected (bearing : Point → Point → ℚ) (s : TrackerState) :
    (commitStep bearing s).isConnected = s.isConnected := by
  unfold commitStep runStartStopEffect runTargetEffect
  dsimp only
  split_ifs <;> rfl

lemma commitStep_depA (bearing : Point → Point → ℚ) (s : TrackerState) :
    (commitStep bearing s).depA_conn = s.isConnected := rfl

lemma commitStep_progress (bearing : Point → Point → ℚ) (s : TrackerState)
    (hA : s.depA_conn = s.isConnected) :
    (commitStep bearing s).progress = s.progress := by
  unfold commitStep runStartStopEffect runTargetEffect
  dsimp only
  split_ifs <;> simp_all

lemma stabilize_progress (bearing : Point → Point → ℚ) (s : TrackerState)
    (hA : s.depA_conn = s.isConnected) :
    (stabilize bearing s).progress = s.progress := by
  have h1 : ∀ t : TrackerState, (commitStep bearing t).depA_conn
      = (commitStep bearing t).isConnected := fun t => by
    rw [commitStep_depA, commitStep_isConnected]
  unfold stabilize
  rw [commitStep_progress bearing _ (h1 _), commitStep_progress bearing _ (h1 _),
    commitStep_progress bearing s hA]

lemma tick_progress (bearing : Point → Point → ℚ) (s : TrackerState)
    (hA : s.depA_conn = s.isConnected) :
    (tick bearing s).progress
      = if s.animPending then advanceProgress s.progress else s.progress := by
  unfold tick
  split_ifs with h
  · rw [stabilize_progress bearing { s with progress := advanceProgress s.progress } hA]
  · rfl

/-- C2: once the progress has reached exactly 1.0, any number of further animation
ticks leaves it exactly 1.0 — the advancement clamps, with no wraparound. -/
theorem progress_clamped_at_one (bearing : Point → Point → ℚ) (s : TrackerState)
    (k : ℕ) (hs : Stable s) (h1 : s.progress = 1) :
    ((tick bearing)^[k] s).progress = 1 := by
  have hfix : tick bearing s = s := by
    apply tick_fixed bearing s hs
    rw [h1]
    norm_num [advanceProgress]
  rw [Function.iterate_fixed hfix k, h1]

/-- Witness for C2: a stable running state at progress 1, five more ticks. -/
theorem progress_clamped_at_one_witness :
    ((tick bearing0)^[5]
      (⟨true, 1, [], none, true, true, 1, true, 0⟩ : TrackerState)).progress = 1 :=
  progress_clamped_at_one bearing0 ⟨true, 1, [], none, true, true, 1, true, 0⟩ 5
    ⟨rfl, rfl, rfl⟩ rfl

lemma tick_depA (bearing : Point → Point → ℚ) (t : TrackerState)
    (hA : t.depA_conn = t.isConnected) :
    (tick bearing t).depA_conn = (tick bearing t).isConnected := by
  unfold tick
  split_ifs
  · unfold stabilize
    simp only [commitStep_depA, commitStep_isConnected]
  · exact hA

lemma tick_progress_le_one (bearing : Point → Point → ℚ) (t : TrackerState)
    (hA : t.depA_conn = t.isConnected) (hle : t.progress ≤ 1) :
    (tick bearing t).progress ≤ 1 := by
  rw [tick_progress bearing t hA]
  split_ifs
  · unfold advanceProgress
    split_ifs
    · exact le_rfl
    · linarith
  · exact hle

lemma tick_progress_mono (bearing : Point → Point → ℚ) (t : TrackerState)
    (hA : t.depA_conn = t.isConnected) (hle : t.progress ≤ 1) :
    t.progress ≤ (tick bearing t).progress := by
  rw [tick_progress bearing t hA]
  split_ifs
  · unfold advanceProgress
    split_ifs
    · exact hle
    · linarith
  · exact le_rfl

/-- C6: while the session runs, the progress never decreases from one tick to the next
(for any number of ticks, given the invariant p ≤ 1), and immediately after an
Idle → Running transition the progress is exactly 0. -/
theorem progress_monotone_and_reset_on_start (bearing : Point → Point → ℚ)
    (s : TrackerState) (hs : Stable s) (hle : s.progress ≤ 1) :
    (∀ k : ℕ, ((tick bearing)^[k] s).progress ≤ ((tick bearing)^[k + 1] s).progress) ∧
    (s.isConnected = false → (connectToTracker bearing s).progress = 0) := by
  constructor
  · have hI : ∀ k : ℕ, ((tick bearing)^[k] s).depA_conn
        = ((tick bearing)^[k] s).isConnected ∧ ((tick bearing)^[k] s).progress ≤ 1 := by
      intro k
      induction k with
      | zero => exact ⟨hs.1, hle⟩
      | succ n ih =>
        rw [Function.iterate_succ_apply']
        exact ⟨tick_depA bearing _ ih.1, tick_progress_le_one bearing _ ih.1 ih.2⟩
    intro k
    rw [Function.iterate_succ_apply']
    exact tick_progress_mono bearing _ (hI k).1 (hI k).2
  · intro hc
    by_cases hp : s.progress = 0
    · rw [connect_start_eq_zero bearing s hs hc hp]
    · rw [connect_start_eq bearing s hs hc hp]

/-- Witness for C6: a stable idle state at progress 1. -/
theorem progress_monotone_and_reset_on_start_witness :
    (∀ k : ℕ, ((tick bearing0)^[k]
        (⟨false, 1, [], none, false, false, 1, false, 3⟩ : TrackerState)).progress
      ≤ ((tick bearing0)^[k + 1]
        (⟨false, 1, [], none, false, false, 1, false, 3⟩ : TrackerState)).progress) ∧
    ((⟨false, 1, [], none, false, false, 1, false, 3⟩ : TrackerState).isConnected = false →
      (connectToTracker bearing0 ⟨false, 1, [], none, false, false, 1, false, 3⟩).progress
        = 0) :=
  progress_monotone_and_reset_on_start bearing0 ⟨false, 1, [], none, false, false, 1, false, 3⟩
    ⟨rfl, rfl, rfl⟩ le_rfl

/-- C7: the stop command only cancels the animation loop — progress, history and the
last target are retained at their current values, and any number of subsequent ticks
(none is scheduled once the frame is cancelled) leaves progress and history
unchanged until the next start. -/
theorem stop_retains_progress_and_history (bearing : Point → Point → ℚ)
    (s : TrackerState) (k : ℕ) (hs : Stable s) (hc : s.isConnected = true) :
    (connectToTracker bearing s).progress = s.progress ∧
    (connectToTracker bearing s).locationHistory = s.locationHistory ∧
    (connectToTracker bearing s).targetLocation = s.targetLocation ∧
    ((tick bearing)^[k] (connectToTracker bearing s)).progress = s.progress ∧
    ((tick bearing)^[k] (connectToTracker bearing s)).locationHistory
      = s.locationHistory := by
  have hstop := connect_stop_eq bearing s hs hc
  have hfix : tick bearing (connectToTracker bearing s) = connectToTracker bearing s := by
    apply tick_not_pending
    rw [hstop]
  rw [Function.iterate_fixed hfix k, hstop]
  exact ⟨rfl, rfl, rfl, rfl, rfl⟩

/-- Witness for C7: a stable running state with one recorded sample, two ticks after
the stop. -/
theorem stop_retains_progress_and_history_witness :
    (connectToTracker bearing0
        ⟨true, 1, [⟨1, 2, 3, none, none⟩], none, true, true, 1, true, 9⟩).progress
      = (⟨true, 1, [⟨1, 2, 3, none, none⟩], none, true, true, 1, true, 9⟩ :
          TrackerState).progress ∧
    (connectToTracker bearing0
        ⟨true, 1, [⟨1, 2, 3, none, none⟩], none, true, true, 1, true, 9⟩).locationHistory
      = (⟨true, 1, [⟨1, 2, 3, none, none⟩], none, true, true, 1, true, 9⟩ :
          TrackerState).locationHistory ∧
    (connectToTracker bearing0
        ⟨true, 1, [⟨1, 2, 3, none, none⟩], none, true, true, 1, true, 9⟩).targetLocation
      = (⟨true, 1, [⟨1, 2, 3, none, none⟩], none, true, true, 1, true, 9⟩ :
          TrackerState).targetLocation ∧
    ((tick bearing0)^[2] (connectToTracker bearing0
        ⟨true, 1, [⟨1, 2, 3, none, none⟩], none, true, true, 1, true, 9⟩)).progress
      = (⟨true, 1, [⟨1, 2, 3, none, none⟩], none, true, true, 1, true, 9⟩ :
          TrackerState).progress ∧
    ((tick bearing0)^[2] (connectToTracker bearing0
        ⟨true, 1, [⟨1, 2, 3, none, none⟩], none, true, true, 1, true, 9⟩)).locationHistory
      = (⟨true, 1, [⟨1, 2, 3, none, none⟩], none, true, true, 1, true, 9⟩ :
          TrackerState).locationHistory :=
  stop_retains_progress_and_history bearing0
    ⟨true, 1, [⟨1, 2, 3, none, none⟩], none, true, true, 1, true, 9⟩ 2 ⟨rfl, rfl, rfl⟩ rfl

/-- The state reached from a fresh start after j animation ticks: progress
min(j,1000)/1000, history of one sample per commit so far — the sample appended at the
transition plus one per progress-changing tick — with timestamps 0..min(j,1000). -/
def stateAfterTicks (bearing : Point → Point → ℚ) (j : ℕ) : TrackerState :=
  { isConnected := true
    progress := ((min j 1000 : ℕ) : ℚ) / 1000
    locationHistory := (List.range (min j 1000 + 1)).map
      (fun i : ℕ => mkTargetSample bearing ((i : ℚ) / 1000) i)
    targetLocation := some (mkTargetSample bearing (((min j 1000 : ℕ) : ℚ) / 1000)
      (min j 1000))
    animPending := true
    depA_conn := true
    depB_prog := ((min j 1000 : ℕ) : ℚ) / 1000
    depB_conn := true
    clock := min j 1000 + 1 }

lemma connect_init_eq (bearing : Point → Point → ℚ) :
    connectToTracker bearing initialState = stateAfterTicks bearing 0 := by
  rw [connect_start_eq_zero bearing initialState ⟨rfl, rfl, rfl⟩ rfl rfl]
  simp [stateAfterTicks, initialState, List.range_succ]

lemma tick_stateAfterTicks (bearing : Point → Point → ℚ) (j : ℕ) :
    tick bearing (stateAfterTicks bearing j) = stateAfterTicks bearing (j + 1) := by
  by_cases hj : j < 1000
  · have hmin : min j 1000 = j := min_eq_left (le_of_lt hj)
    have hmin1 : min (j + 1) 1000 = j + 1 := min_eq_left (by omega)
    have hadv : advanceProgress ((j : ℚ) / 1000) = ((j : ℚ) + 1) / 1000 := by
      unfold advanceProgress
      rw [if_neg]
      · ring
      · have hcap : (j : ℚ) ≤ 999 := by exact_mod_cast (by omega : j ≤ 999)
        rw [not_lt, div_add_div_same, div_le_one (by norm_num)]
        linarith
    have hne : advanceProgress ((stateAfterTicks bearing j).progress)
        ≠ (stateAfterTicks bearing j).progress := by
      simp only [stateAfterTicks]
      rw [hmin, hadv]
      intro hcontra
      rw [div_eq_div_iff (by norm_num) (by norm_num)] at hcontra
      have : (j : ℚ) + 1 = (j : ℚ) := by
        have h1000 : (0 : ℚ) < 1000 := by norm_num
        nlinarith
      linarith
    have hc1 : ((j + 1 : ℕ) : ℚ) = (j : ℚ) + 1 := by push_cast; ring
    rw [tick_advances bearing (stateAfterTicks bearing j) ⟨rfl, rfl, rfl⟩ rfl rfl hne]
    simp only [stateAfterTicks, hmin, hmin1, hadv, hc1, List.range_succ, List.map_append,
      List.map_cons, List.map_nil]
  · have hmin : min j 1000 = 1000 := min_eq_right (by omega)
    have hmin1 : min (j + 1) 1000 = 1000 := min_eq_right (by omega)
    have hsame : stateAfterTicks bearing j = stateAfterTicks bearing (j + 1) := by
      unfold stateAfterTicks
      rw [hmin, hmin1]
    have heq : advanceProgress ((stateAfterTicks bearing j).progress)
        = (stateAfterTicks bearing j).progress := by
      simp only [stateAfterTicks]
      rw [hmin]
      norm_num [advanceProgress]
    rw [tick_fixed bearing (stateAfterTicks bearing j) ⟨rfl, rfl, rfl⟩ heq, hsame]

lemma iterate_tick_start (bearing : Point → Point → ℚ) (k : ℕ) :
    (tick bearing)^[k] (connectToTracker bearing initialState)
      = stateAfterTicks bearing k := by
  induction k with
  | zero => exact connect_init_eq bearing
  | succ n ih => rw [Function.iterate_succ_apply', ih, tick_stateAfterTicks]

/-- C4 (amended): after k ticks since a fresh Idle → Running transition, the history
has length min(k,1000) + 1 — one sample appended at the transition itself plus one per
progress-advancing tick (ticks after the clamp at 1 append nothing) — and its
timestamps are exactly 0, ..., min(k,1000): strictly ascending, no drops, no
duplicates.  The claimed length k is off by one (and saturates). -/
theorem history_after_k_ticks (bearing : Point → Point → ℚ) (k : ℕ) :
    ((tick bearing)^[k]
        (connectToTracker bearing initialState)).locationHistory.length
      = min k 1000 + 1 ∧
    ((tick bearing)^[k]
        (connectToTracker bearing initialState)).locationHistory.map Sample.timestamp
      = List.range (min k 1000 + 1) := by
  rw [iterate_tick_start]
  constructor
  · simp [stateAfterTicks]
  · simp only [stateAfterTicks, List.map_map]
    have hfun : (Sample.timestamp ∘ fun i : ℕ => mkTargetSample bearing ((i : ℚ) / 1000) i)
        = fun i : ℕ => i := by
      funext i
      rfl
    rw [hfun, List.map_id']

/-- C4 counterexample: immediately after the Idle → Running transition — k = 0 ticks —
the history already holds one sample, so its length is not k = 0. -/
theorem history_after_k_ticks_claim_false :
    (connectToTracker bearing0 initialState).locationHistory.length ≠ 0 := by
  rw [connect_start_eq_zero bearing0 initialState ⟨rfl, rfl, rfl⟩ rfl rfl]
  simp

/-- C5 (amended): from any stable running state with nonzero progress, stop followed by
start resets the progress to exactly 0 and clears the history, but the target-update
effect immediately repopulates it before any tick: after the start the history holds
exactly two samples — one computed at the prior session's final progress, then one at
progress 0 — not zero samples. -/
theorem stop_start_resets (bearing : Point → Point → ℚ) (s : TrackerState)
    (hs : Stable s) (hc : s.isConnected = true) (hp : s.progress ≠ 0) :
    (connectToTracker bearing (connectToTracker bearing s)).progress = 0 ∧
    (connectToTracker bearing (connectToTracker bearing s)).locationHistory
      = [mkTargetSample bearing s.progress s.clock,
          mkTargetSample bearing 0 (s.clock + 1)] := by
  rw [connect_stop_eq bearing s hs hc]
  rw [connect_start_eq bearing
    { s with isConnected := false, animPending := false, depA_conn := false, depB_conn := false }
    ⟨rfl, hs.2.1, rfl⟩ rfl hp]
  exact ⟨rfl, rfl⟩

/-- Witness for C5 at a stable running state whose progress is exactly 1. -/
theorem stop_start_resets_witness :
    (connectToTracker bearing0 (connectToTracker bearing0
        ⟨true, 1, [], none, true, true, 1, true, 0⟩)).progress = 0 ∧
    (connectToTracker bearing0 (connectToTracker bearing0
        ⟨true, 1, [], none, true, true, 1, true, 0⟩)).locationHistory
      = [mkTargetSample bearing0 1 0, mkTargetSample bearing0 0 (0 + 1)] :=
  stop_start_resets bearing0 ⟨true, 1, [], none, true, true, 1, true, 0⟩
    ⟨rfl, rfl, rfl⟩ rfl one_ne_zero

/-- C5 counterexample: run a full session from the initial state (start, then 1000
ticks, reaching progress exactly 1), stop, start — the history length after the start
is not 0. -/
theorem stop_start_clears_claim_false :
    (connectToTracker bearing0 (connectToTracker bearing0
        ((tick bearing0)^[1000]
          (connectToTracker bearing0 initialState)))).locationHistory.length ≠ 0 := by
  rw [iterate_tick_start bearing0 1000]
  rw [connect_stop_eq bearing0 (stateAfterTicks bearing0 1000) ⟨rfl, rfl, rfl⟩ rfl]
  rw [connect_start_eq bearing0
    { (stateAfterTicks bearing0 1000) with isConnected := false, animPending := false, depA_conn := false, depB_conn := false }
    ⟨rfl, rfl, rfl⟩ rfl (by norm_num [stateAfterTicks])]
  simp

/-- C10 (amended): an Idle → Running transition from a stable idle state appends,
before any tick, exactly one sample when the prior progress was 0 — computed at
progress 0, i.e. at the route's first waypoint — but exactly two samples when the
prior progress q was nonzero: the first at the stale q, then one at progress 0. -/
theorem start_appends_initial_sample (bearing : Point → Point → ℚ) (s : TrackerState)
    (hs : Stable s) (hc : s.isConnected = false) :
    (s.progress = 0 →
      (connectToTracker bearing s).locationHistory
        = [mkTargetSample bearing 0 s.clock]) ∧
    (s.progress ≠ 0 →
      (connectToTracker bearing s).locationHistory
        = [mkTargetSample bearing s.progress s.clock,
            mkTargetSample bearing 0 (s.clock + 1)]) ∧
    (mkTargetSample bearing 0 s.clock).lat = (routePoints.getD 0 ⟨0, 0⟩).lat ∧
    (mkTargetSample bearing 0 s.clock).lng = (routePoints.getD 0 ⟨0, 0⟩).lng := by
  refine ⟨fun hp => by rw [connect_start_eq_zero bearing s hs hc hp],
    fun hp => by rw [connect_start_eq bearing s hs hc hp], ?_, ?_⟩
  · show (targetPosition routePoints 0).lat = _
    rw [targetPosition_zero routePoints (by decide)]
  · show (targetPosition routePoints 0).lng = _
    rw [targetPosition_zero routePoints (by decide)]

/-- Witness for C10 at a stable idle state with stale progress 1 and clock 4. -/
theorem start_appends_initial_sample_witness :
    ((⟨false, 1, [], none, false, false, 1, false, 4⟩ : TrackerState).progress = 0 →
      (connectToTracker bearing0
          ⟨false, 1, [], none, false, false, 1, false, 4⟩).locationHistory
        = [mkTargetSample bearing0 0 4]) ∧
    ((⟨false, 1, [], none, false, false, 1, false, 4⟩ : TrackerState).progress ≠ 0 →
      (connectToTracker bearing0
          ⟨false, 1, [], none, false, false, 1, false, 4⟩).locationHistory
        = [mkTargetSample bearing0 1 4, mkTargetSample bearing0 0 (4 + 1)]) ∧
    (mkTargetSample bearing0 0 4).lat = (routePoints.getD 0 ⟨0, 0⟩).lat ∧
    (mkTargetSample bearing0 0 4).lng = (routePoints.getD 0 ⟨0, 0⟩).lng :=
  start_appends_initial_sample bearing0 ⟨false, 1, [], none, false, false, 1, false, 4⟩
    ⟨rfl, rfl, rfl⟩ rfl

/-- C10 counterexample: start, one tick, stop, then start again — the second
Idle → Running transition appends two samples (the first computed at the stale progress
1/1000), so the history right after the transition does not hold exactly one sample. -/
theorem start_appends_one_sample_claim_false :
    (connectToTracker bearing0 (connectToTracker bearing0
        (tick bearing0
          (connectToTracker bearing0 initialState)))).locationHistory.length ≠ 1 := by
  rw [connect_init_eq bearing0, tick_stateAfterTicks bearing0 0]
  rw [connect_stop_eq bearing0 (stateAfterTicks bearing0 (0 + 1)) ⟨rfl, rfl, rfl⟩ rfl]
  rw [connect_start_eq bearing0
    { (stateAfterTicks bearing0 (0 + 1)) with isConnected := false, animPending := false, depA_conn := false, depB_conn := false }
    ⟨rfl, rfl, rfl⟩ rfl (by norm_num [stateAfterTicks])]
  simp

end LocationTrack

namespace Dashboard

/-!
Model of the `locationUpdate` socket handler of the display component in
`src/client/src/pages/Dashboard.tsx` (lines 132-137): in display mode, when no device
is selected or the sample's device is the selected one, the handler stores the sample
as the current location and appends it to the history, keeping only
`prev.slice(-200)` of the existing entries.  JS `prev.slice(-200)` is the suffix of
the last `min(length, 200)` elements, `List.drop (length - 200)` with truncated
subtraction.
-/

/-- A `Location` as received over the socket in the Dashboard page: coordinates,
timestamp, optional motion attributes and an optional source-device id. -/
structure DSample where
  lat : ℚ
  lng : ℚ
  timestamp : ℕ
  accuracy : Option ℚ
  speed : Option ℚ
  heading : Option ℚ
  deviceId : Option String
deriving DecidableEq, Repr

/-- The `deviceMode` state of the Dashboard page component. -/
inductive DeviceMode where
  | tracker
  | display
deriving DecidableEq, Repr

/-- The history update performed by the `locationUpdate` handler. -/
def handleLocationUpdate (deviceMode : DeviceMode) (selectedDevice : Option String)
    (hist : List DSample) (d : DSample) : List DSample :=
  if deviceMode = DeviceMode.display
      ∧ (selectedDevice = none ∨ d.deviceId = selectedDevice) then
    hist.drop (hist.length - 200) ++ [d]
  else hist

/-- C9: in display contexts the history is bounded to the most recent ~200 samples —
here exactly 200 retained entries plus the newly appended one, so at most 201: for
every sequence of incoming samples processed from the empty history the length never
exceeds 201, and each update either leaves the history unchanged or keeps a suffix
(the most recent entries) of the old history with the new sample appended. -/
theorem dashboard_history_bounded (deviceMode : DeviceMode)
    (selectedDevice : Option String) (ds : List DSample) :
    ((ds.foldl (handleLocationUpdate deviceMode selectedDevice) []).length ≤ 201) ∧
    (∀ hist d, handleLocationUpdate deviceMode selectedDevice hist d = hist ∨
      (handleLocationUpdate deviceMode selectedDevice hist d).IsSuffix (hist ++ [d])) := by
  constructor
  · have key : ∀ (l : List DSample) (h : List DSample), h.length ≤ 201 →
        (l.foldl (handleLocationUpdate deviceMode selectedDevice) h).length ≤ 201 := by
      intro l
      induction l with
      | nil => intro h hh; simpa using hh
      | cons d tl ih =>
        intro h hh
        rw [List.foldl_cons]
        apply ih
        unfold handleLocationUpdate
        split_ifs
        · rw [List.length_append, List.length_drop]
          simp only [List.length_singleton]
          omega
        · exact hh
    exact key ds [] (by simp)
  · intro hist d
    unfold handleLocationUpdate
    split_ifs
    · right
      obtain ⟨t, ht⟩ : (hist.drop (hist.length - 200)).IsSuffix hist :=
        List.drop_suffix _ _
      exact ⟨t, by rw [← List.append_assoc, ht]⟩
    · left
      rfl

end Dashboard
